import Mathlib

/-!
Verification of the P-BOX configuration-generation and core-lifecycle
subsystem.  The definitions below are shallow embeddings of the Go source:

* `PBox.Gen` — the sing-box configuration generator
  (`SingboxGenerator.convertProxyNode`, `convertFromConfig`,
  `generateOutbounds`, `SaveConfig`, helpers `getStringOr` / `getBool`).
* `PBox.Bridge` — the Mihomo control-API bridge handlers and the log
  retrieval endpoint (`Handler.ProxyMihomo*`, `Handler.GetLogs`).
* `PBox.CoreSvc` — the core manager (`Service.SwitchCore`,
  `Service.DownloadCore`, `Service.GetDownloadProgress`,
  `Service.saveStatus`).

Go maps are modelled as association lists, machine integers as `Int`/`Nat`,
the float64 download percentage as `ℚ`, and external effects (HTTP, the
filesystem, archive extraction) as explicit environment values or operation
traces.
-/

namespace PBox

/-- A JSON value as produced by Go's `encoding/json` unmarshalling into
`map[string]interface{}`: strings, float64 numbers (modelled as `ℚ`),
booleans, arrays, objects and null. -/
inductive JValue where
  | null
  | bool (b : Bool)
  | num (q : ℚ)
  | str (s : String)
  | arr (xs : List JValue)
  | obj (fields : List (String × JValue))

/-- Lookup in a JSON object (Go map indexing `m[key]`). -/
def jLookup (m : List (String × JValue)) (key : String) : Option JValue :=
  List.lookup key m

/-- Go `v, ok := m[key].(string)` with the zero value `""` when the key is
absent or not a string. -/
def getStr (m : List (String × JValue)) (key : String) : String :=
  match jLookup m key with
  | some (.str s) => s
  | _ => ""

/-- Source helper `getStringOr`: the string at `key` when present and
non-empty, otherwise `defaultVal`. -/
def getStringOr (m : List (String × JValue)) (key defaultVal : String) : String :=
  match jLookup m key with
  | some (.str v) => if v = "" then defaultVal else v
  | _ => defaultVal

/-- Source helper `getBool`: the boolean at `key`, `false` when absent or
not a boolean. -/
def getBool (m : List (String × JValue)) (key : String) : Bool :=
  match jLookup m key with
  | some (.bool v) => v
  | _ => false

/-- Go `int(f)` on a float64: truncation toward zero. -/
def truncInt (q : ℚ) : Int :=
  if q < 0 then ⌈q⌉ else ⌊q⌋

/-- Go `port, ok := m["port"].(float64); if ok { ... = int(port) }` with
zero value 0. -/
def getPort (m : List (String × JValue)) : Int :=
  match jLookup m "port" with
  | some (.num q) => truncInt q
  | _ => 0

/-- Go `v.(string)` with zero value. -/
def asStr : JValue → String
  | .str s => s
  | _ => ""

/-- Whether `m[key]` is a non-empty string (the condition under which
`getStringOr` keeps the stored value instead of its default). -/
def hasNonemptyStr (m : List (String × JValue)) (key : String) : Bool :=
  match jLookup m key with
  | some (.str s) => s ≠ ""
  | _ => false

namespace Gen

/-- `SingboxTLS` from the source (`alpn` omitted by the generator is `[]`). -/
structure SingboxTLS where
  enabled : Bool
  serverName : String := ""
  insecure : Bool := false
  alpn : List String := []
deriving DecidableEq, Repr

/-- `SingboxTransport` from the source. -/
structure SingboxTransport where
  type : String
  path : String := ""
  headers : List (String × String) := []
deriving DecidableEq, Repr

/-- `SingboxOutbound` from the source; absent fields keep Go zero values. -/
structure SingboxOutbound where
  type : String := ""
  tag : String := ""
  server : String := ""
  serverPort : Int := 0
  method : String := ""
  password : String := ""
  uuid : String := ""
  security : String := ""
  alterId : Int := 0
  tls : Option SingboxTLS := none
  transport : Option SingboxTransport := none
  outbounds : List String := []
  default : String := ""
  url : String := ""
  interval : String := ""
  interruptExist : Bool := false
deriving DecidableEq, Repr

/-- The opaque `ProxyNode.Config` payload: Go distinguishes the empty
string, a non-empty string that fails to unmarshal into
`map[string]interface{}`, and one that unmarshals into an object. -/
inductive NodeConfig where
  | empty
  | invalid (raw : String)
  | object (fields : List (String × JValue))

/-- Go `strings.HasSuffix`. -/
def strEndsWith (s suffix : String) : Bool :=
  suffix.toList.reverse.isPrefixOf s.toList.reverse

/-- ASCII lower-casing of one character (the protocol tags dispatched on
are ASCII, where Go `strings.ToLower` acts exactly like this). -/
def lowerChar (c : Char) : Char :=
  if 'A' ≤ c ∧ c ≤ 'Z' then Char.ofNat (c.toNat + 32) else c

/-- Go `strings.ToLower` on ASCII strings. -/
def strToLower (s : String) : String :=
  String.mk (s.toList.map lowerChar)

/-- Whether the opaque payload parsed as a JSON object. -/
def NodeConfig.isObject : NodeConfig → Bool
  | .object _ => true
  | _ => false

/-- The fields of `ProxyNode` read by the sing-box generator (the full
record also carries an identifier and origin flag, unused here). -/
structure ProxyNode where
  name : String
  type : String
  server : String
  port : Int
  config : NodeConfig

/-- The vmess `alterId` field: Go
`if alterId, ok := config["alterId"].(float64); ok { ... = int(alterId) }`. -/
def vmessAlterId (config : List (String × JValue)) : Int :=
  match jLookup config "alterId" with
  | some (.num q) => truncInt q
  | _ => 0

/-- The vmess stream-transport block of `convertFromConfig`: set when a
`network` string other than `"tcp"` is present, copying path and headers
from `ws-opts` when they exist. -/
def vmessTransport (config : List (String × JValue)) : Option SingboxTransport :=
  match jLookup config "network" with
  | some (.str network) =>
    if network ≠ "tcp" then
      match jLookup config "ws-opts" with
      | some (.obj wsOpts) =>
        some { type := network, path := getStr wsOpts "path",
               headers :=
                 match jLookup wsOpts "headers" with
                 | some (.obj hs) => hs.map (fun kv => (kv.1, asStr kv.2))
                 | _ => [] }
      | _ => some { type := network }
    else none
  | _ => none

/-- `SingboxGenerator.convertFromConfig`: translate a parsed opaque payload
into an outbound, dispatching on the payload's lower-cased `type` field;
an unrecognized type yields `none` (Go `nil`). -/
def convertFromConfig (name : String) (config : List (String × JValue)) :
    Option SingboxOutbound :=
  if strToLower (getStr config "type") = "ss" then
    some { tag := name, type := "shadowsocks",
           server := getStr config "server", serverPort := getPort config,
           method := getStr config "cipher", password := getStr config "password" }
  else if strToLower (getStr config "type") = "vmess" then
    some { tag := name, type := "vmess",
           server := getStr config "server", serverPort := getPort config,
           uuid := getStr config "uuid",
           alterId := vmessAlterId config,
           security :=
             if getStr config "cipher" = "" then "auto" else getStr config "cipher",
           tls :=
             if getBool config "tls" then
               some { enabled := true,
                      serverName := getStringOr config "sni" (getStr config "server"),
                      insecure := getBool config "skip-cert-verify" }
             else none,
           transport := vmessTransport config }
  else if strToLower (getStr config "type") = "trojan" then
    some { tag := name, type := "trojan",
           server := getStr config "server", serverPort := getPort config,
           password := getStr config "password",
           tls := some { enabled := true,
                         serverName := getStringOr config "sni" (getStr config "server"),
                         insecure := getBool config "skip-cert-verify" } }
  else if strToLower (getStr config "type") = "vless" then
    some { tag := name, type := "vless",
           server := getStr config "server", serverPort := getPort config,
           uuid := getStr config "uuid" }
  else none

/-- `SingboxGenerator.convertProxyNode`: when the opaque payload parses as
a JSON object the translation is delegated to `convertFromConfig`;
otherwise the lower-cased top-level protocol tag is dispatched, an
unrecognized tag yielding `none`. -/
def convertProxyNode (node : ProxyNode) : Option SingboxOutbound :=
  let outbound : SingboxOutbound :=
    { tag := node.name, server := node.server, serverPort := node.port }
  match node.config with
  | .object fields => convertFromConfig node.name fields
  | _ =>
    let nodeType := strToLower node.type
    if nodeType = "ss" ∨ nodeType = "shadowsocks" then
      some { outbound with type := "shadowsocks" }
    else if nodeType = "vmess" then
      some { outbound with type := "vmess" }
    else if nodeType = "vless" then
      some { outbound with type := "vless" }
    else if nodeType = "trojan" then
      some { outbound with type := "trojan" }
    else if nodeType = "hysteria2" ∨ nodeType = "hy2" then
      some { outbound with type := "hysteria2" }
    else if nodeType = "socks" ∨ nodeType = "socks5" then
      some { outbound with type := "socks" }
    else if nodeType = "http" then
      some { outbound with type := "http" }
    else none

/-- The conversion loop of `generateOutbounds`: collect the successfully
translated outbounds together with the corresponding node names, in input
order. -/
def convertNodes : List ProxyNode → List SingboxOutbound × List String
  | [] => ([], [])
  | node :: rest =>
    let tail := convertNodes rest
    match convertProxyNode node with
    | some ob => (ob :: tail.1, node.name :: tail.2)
    | none => tail

/-- The selector and url-test outbounds appended when at least one node
translated (`generateOutbounds`, source lines 705-721). -/
def selectorBlock (nodeNames : List String) : List SingboxOutbound :=
  if nodeNames.length > 0 then
    [ { type := "selector", tag := "proxy",
        outbounds := "auto" :: nodeNames, default := "auto" },
      { type := "urltest", tag := "auto", outbounds := nodeNames,
        url := "https://www.gstatic.com/generate_204",
        interval := "300s", interruptExist := true } ]
  else []

/-- The trailing direct/block/dns outbounds always appended. -/
def baseOutbounds : List SingboxOutbound :=
  [ { type := "direct", tag := "direct" },
    { type := "block", tag := "block" },
    { type := "dns", tag := "dns-out" } ]

/-- `SingboxGenerator.generateOutbounds` (its `options` argument is unused
in the source body). -/
def generateOutbounds (nodes : List ProxyNode) : List SingboxOutbound :=
  let converted := convertNodes nodes
  converted.1 ++ selectorBlock converted.2 ++ baseOutbounds

/-- A filesystem operation performed by `SaveConfig`. -/
inductive FsOp where
  | mkdirAll (path : String)
  | writeFile (path : String) (data : String)
  | rename (src : String) (dst : String)
deriving DecidableEq, Repr

/-- Whether an operation is a rename. -/
def FsOp.isRename : FsOp → Bool
  | .rename _ _ => true
  | _ => false

/-- `SingboxGenerator.SaveConfig`, as the trace of filesystem operations it
performs together with its result.  `data` is the `json.MarshalIndent`
serialization of the configuration (the serializer is library code);
`mkdirOk` and `writeOk` are the outcomes of the two fallible calls. -/
def saveConfig (dataDir : String) (data : String) (filename : String)
    (mkdirOk writeOk : Bool) : List FsOp × Except String String :=
  let configDir := dataDir ++ "/configs"
  if mkdirOk then
    let filename :=
      if strEndsWith filename ".json" then filename else filename ++ ".json"
    let filePath := configDir ++ "/" ++ filename
    if writeOk then
      ([.mkdirAll configDir, .writeFile filePath data], .ok filePath)
    else
      ([.mkdirAll configDir, .writeFile filePath data], .error "write failed")
  else ([.mkdirAll configDir], .error "mkdir failed")

end Gen

namespace Bridge

/-- Substring search on character lists: does `pat` occur contiguously? -/
def charsContain (pat : List Char) : List Char → Bool
  | [] => pat.isEmpty
  | c :: rest => pat.isPrefixOf (c :: rest) || charsContain pat rest

/-- Go `strings.Contains s pat`. -/
def strContains (s pat : String) : Bool :=
  charsContain pat.toList s.toList

/-- The filtering loop of `Handler.GetLogs` (source lines 272-291):
depending on `level`, keep only the lines containing that severity's
substring markers; any other level keeps every line. -/
def filterLogs (level : String) : List String → List String
  | [] => []
  | log :: rest =>
    let keep :=
      if level = "error" then
        strContains log "ERR" || strContains log "FATA" || strContains log "error"
      else if level = "warn" then
        strContains log "WARN" || strContains log "warning"
      else if level = "info" then
        strContains log "INFO" || strContains log "info"
      else true
    if keep then log :: filterLogs level rest else filterLogs level rest

/-- Modelled from the spec: `Service.GetLogs` is not in the provided
sources; per the spec, log retrieval "returns the most recent N lines" of
the bounded ring buffer.  `buffer` is ordered oldest first, so the most
recent `n` lines in order are the last `n` entries. -/
def recentLines (buffer : List String) (n : Nat) : List String :=
  buffer.drop (buffer.length - n)

/-- `Handler.GetLogs` after parameter parsing: fetch the most recent
`limit` lines and filter them by `level`. -/
def getLogs (buffer : List String) (limit : Nat) (level : String) : List String :=
  filterLogs level (recentLines buffer limit)

/-- A request issued by a bridge handler against the engine control API. -/
structure UpstreamReq where
  method : String
  url : String
  body : String
deriving DecidableEq, Repr

/-- The outcome of an upstream control-API call: a connection failure with
an error message, or a response with status code and body. -/
inductive UpstreamResult where
  | failure (msg : String)
  | success (status : Nat) (body : String)
deriving DecidableEq, Repr

/-- The body of a bridge handler's HTTP response: either the gin JSON
error document or the upstream bytes relayed with a content type. -/
inductive RespBody where
  | jsonError (code : Nat) (message : String)
  | raw (contentType : String) (payload : String)
deriving DecidableEq, Repr

/-- A bridge handler's HTTP response. -/
structure GinResponse where
  status : Nat
  body : RespBody
deriving DecidableEq, Repr

/-- The HTTP 503 response produced on upstream connection failure
(`c.JSON(http.StatusServiceUnavailable, ...)`). -/
def unavailable (msg : String) : GinResponse :=
  { status := 503, body := .jsonError 1 ("Mihomo API 不可用: " ++ msg) }

/-- The control-API address resolution shared by every bridge handler:
`h.service.GetConfig().ExternalController`, falling back to
`127.0.0.1:9090` when empty. -/
def apiAddrOf (externalController : String) : String :=
  if externalController = "" then "127.0.0.1:9090" else externalController

/-- Shared tail of every bridge handler: issue the request and either
relay the upstream status/body or answer 503. -/
def dispatch (req : UpstreamReq) (upstream : UpstreamReq → UpstreamResult) :
    UpstreamReq × GinResponse :=
  match upstream req with
  | .failure msg => (req, unavailable msg)
  | .success status body => (req, { status := status, body := .raw "application/json" body })

/-- `Handler.ProxyMihomoGetProxies`; returns the issued request together
with the handler's response. -/
def proxyMihomoGetProxies (externalController : String)
    (upstream : UpstreamReq → UpstreamResult) : UpstreamReq × GinResponse :=
  let apiAddr := apiAddrOf externalController
  dispatch { method := "GET", url := "http://" ++ apiAddr ++ "/proxies", body := "" } upstream

/-- `Handler.ProxyMihomoGetProxy`. -/
def proxyMihomoGetProxy (externalController name : String)
    (upstream : UpstreamReq → UpstreamResult) : UpstreamReq × GinResponse :=
  let apiAddr := apiAddrOf externalController
  dispatch { method := "GET", url := "http://" ++ apiAddr ++ "/proxies/" ++ name, body := "" }
    upstream

/-- `Handler.ProxyMihomoSelectProxy`: relays the caller's request body via
a PUT. -/
def proxyMihomoSelectProxy (externalController name reqBody : String)
    (upstream : UpstreamReq → UpstreamResult) : UpstreamReq × GinResponse :=
  let apiAddr := apiAddrOf externalController
  dispatch { method := "PUT", url := "http://" ++ apiAddr ++ "/proxies/" ++ name,
             body := reqBody } upstream

/-- `Handler.ProxyMihomoTestDelay`: defaults the test URL and timeout query
parameters, then relays. -/
def proxyMihomoTestDelay (externalController name url timeout : String)
    (upstream : UpstreamReq → UpstreamResult) : UpstreamReq × GinResponse :=
  let url := if url = "" then "http://www.gstatic.com/generate_204" else url
  let timeout := if timeout = "" then "5000" else timeout
  let apiAddr := apiAddrOf externalController
  dispatch { method := "GET",
             url := "http://" ++ apiAddr ++ "/proxies/" ++ name ++ "/delay?url=" ++ url
                      ++ "&timeout=" ++ timeout,
             body := "" } upstream

end Bridge

namespace CoreSvc

/-- `Core` from `core/service.go` (the engine catalog entry). -/
structure Core where
  name : String := ""
  version : String := ""
  latestVersion : String := ""
  installed : Bool := false
  path : String := ""
deriving DecidableEq, Repr

/-- `DownloadProgress` from `core/service.go`; `progress` is the float64
percentage, modelled exactly as a rational. -/
structure DownloadProgress where
  downloading : Bool := false
  progress : ℚ := 0
  speed : Int := 0
  error : String := ""
deriving DecidableEq, Repr

/-- `SavedCoreStatus`, the persisted status record. -/
structure SavedCoreStatus where
  currentCore : String
  versions : List (String × String)
deriving DecidableEq, Repr

/-- The mutable state of `core.Service`: current engine, engine catalog and
per-engine download progress (Go maps as association lists), plus the
on-disk status record last written by `saveStatus` (`none` when never
written). -/
structure Service where
  currentCore : String
  cores : List (String × Core)
  downloadProgress : List (String × DownloadProgress)
  saved : Option SavedCoreStatus := none
deriving DecidableEq, Repr

/-- The record `saveStatus` persists: the current engine and the versions
of the installed engines. -/
def savedRecord (s : Service) : SavedCoreStatus :=
  { currentCore := s.currentCore,
    versions := (s.cores.filter fun kv => kv.2.installed).map fun kv => (kv.1, kv.2.version) }

/-- `Service.saveStatus`: write the status record. -/
def saveStatus (s : Service) : Service :=
  { s with saved := some (savedRecord s) }

/-- `Service.SwitchCore`: reject an unknown or not-installed engine leaving
the state untouched; otherwise set it current and persist the choice. -/
def switchCore (s : Service) (coreType : String) : Except String Unit × Service :=
  match List.lookup coreType s.cores with
  | none => (.error ("unknown core type: " ++ coreType), s)
  | some core =>
    if core.installed then
      let s := saveStatus { s with currentCore := coreType }
      (.ok (), s)
    else (.error ("core " ++ coreType ++ " is not installed"), s)

/-- `Service.GetStatus`: the reported current engine and catalog. -/
def getStatus (s : Service) : String × List (String × Core) :=
  (s.currentCore, s.cores)

/-- `Service.GetDownloadProgress`: the stored progress record for the
engine, or a zero-value record when none exists; returns the (unchanged)
service state alongside, mirroring the method receiver. -/
def getDownloadProgress (s : Service) (coreType : String) :
    DownloadProgress × Service :=
  match List.lookup coreType s.downloadProgress with
  | some progress => (progress, s)
  | none => ({ }, s)

/-! ### The download path

`Service.DownloadCore` touches, besides the engine's `DownloadProgress`
entry and catalog entry, two filesystem locations: the shared temporary
archive `cores/download.tmp` and the engine's binary path.  `DlState`
projects exactly that footprint for the engine being downloaded; the
external world (HTTP and archive extraction outcomes) is an explicit
environment. -/

/-- The per-engine state read and written by one `DownloadCore` run.
`binContent` is the byte content of the file at the engine's binary path
(`none` when no file exists there). -/
structure DlState where
  progress : DownloadProgress := { }
  installed : Bool := false
  version : String := ""
  latestVersion : String := ""
  binContent : Option (List Nat) := none
  tmpExists : Bool := false
deriving DecidableEq, Repr

/-- How the streamed response body ends after its successful chunks:
cleanly (`io.EOF`) or with a read error. -/
inductive ReadEnd where
  | eof
  | ioError (msg : String)
deriving DecidableEq, Repr

/-- An HTTP response for the archive download: status code, the
`ContentLength` header (`-1` when absent, as in Go), the sizes of the
successfully read chunks, and how the stream ends. -/
structure HttpResp where
  status : Int
  contentLength : Int
  chunks : List Nat
  final : ReadEnd
deriving DecidableEq, Repr

/-- The outcome of `extractCore` on the downloaded archive, including its
effect on the binary path: opening/gzip/tar failures and a missing tar
member leave the binary path untouched, while a copy begun at the binary
path truncates it first, so a mid-copy failure leaves the partial bytes
behind. -/
inductive ExtractOutcome where
  | openFail (msg : String)
  | gzipFail (msg : String)
  | notFound
  | copyFail (leftover : List Nat) (msg : String)
  | copyOk (content : List Nat)
deriving DecidableEq, Repr

/-- The external events of one `DownloadCore` run: the `http.Get` outcome
(`none` is a connection error), whether creating the temporary file
succeeds, and the extraction outcome. -/
structure DlEnv where
  httpResult : Option HttpResp
  createOk : Bool
  extract : ExtractOutcome
deriving Repr

/-- The fresh progress record `DownloadCore` installs on entry:
`&DownloadProgress{Downloading: true}` (all other fields zero). -/
def downloadInit (s : DlState) : DlState :=
  { s with progress := { downloading := true } }

/-- The streaming copy loop (source lines 369-389): after each chunk the
percentage becomes `written/contentLength*100` when the content length is
positive, and is left unchanged otherwise.  Returns the final percentage
together with the percentage after every chunk, in order. -/
def streamLoop (contentLength : Int) (prev : ℚ) (written : Nat) :
    List Nat → ℚ × List ℚ
  | [] => (prev, [])
  | n :: rest =>
    let w := written + n
    let p := if contentLength > 0 then (w : ℚ) / (contentLength : ℚ) * 100 else prev
    let tail := streamLoop contentLength p w rest
    (tail.1, p :: tail.2)

/-- The deferred `Downloading = false` executed on every exit path. -/
def finishDl (s : DlState) : DlState :=
  { s with progress := { s.progress with downloading := false } }

/-- The extraction step of `DownloadCore` (source lines 392-398): on any
extraction failure the temporary archive is removed and the error is
returned; a mid-copy failure leaves the partial bytes at the binary path;
on success the binary is installed, the latest version adopted and the
temporary file removed. -/
def dlExtract (s : DlState) (ex : ExtractOutcome) : Except String Unit × DlState :=
  match ex with
  | .openFail msg =>
    (.error ("extract failed: " ++ msg), finishDl { s with tmpExists := false })
  | .gzipFail msg =>
    (.error ("extract failed: gzip open failed: " ++ msg),
     finishDl { s with tmpExists := false })
  | .notFound =>
    (.error "extract failed: executable not found in archive",
     finishDl { s with tmpExists := false })
  | .copyFail leftover msg =>
    (.error ("extract failed: " ++ msg),
     finishDl { s with tmpExists := false, binContent := some leftover })
  | .copyOk content =>
    (.ok (),
     finishDl { s with tmpExists := false, binContent := some content,
                       installed := true, version := s.latestVersion })

/-- The streaming step of `DownloadCore` (source lines 365-390): record the
final percentage computed by the copy loop; a read error removes the
temporary file and fails, a clean EOF proceeds to extraction. -/
def dlStream (s : DlState) (resp : HttpResp) (ex : ExtractOutcome) :
    Except String Unit × DlState :=
  let s := { s with progress :=
    { s.progress with progress := (streamLoop resp.contentLength 0 0 resp.chunks).1 } }
  match resp.final with
  | .ioError msg => (.error msg, finishDl { s with tmpExists := false })
  | .eof => dlExtract s ex

/-- The fetch step of `DownloadCore` (source lines 346-363): a connection
error, a non-200 status or a failing temporary-file creation abort the run
without touching the error field; otherwise the temporary file exists and
streaming begins. -/
def dlFetch (s : DlState) (env : DlEnv) : Except String Unit × DlState :=
  match env.httpResult with
  | none => (.error "download failed", finishDl s)
  | some resp =>
    if resp.status ≠ 200 then
      (.error ("download failed: HTTP " ++ toString resp.status), finishDl s)
    else if ¬ env.createOk then
      (.error "create failed", finishDl s)
    else dlStream { s with tmpExists := true } resp env.extract

/-- `Service.DownloadCore` specialised to one engine's footprint, composed
of its source steps: reset the progress record; resolve the download URL
(failing when no latest version is known — the only step that records its
error in the progress record); then fetch, stream and extract. -/
def downloadCore (s : DlState) (env : DlEnv) : Except String Unit × DlState :=
  let s := downloadInit s
  if s.latestVersion = "" then
    let msg := "version not found, please check latest version first"
    (.error msg,
     finishDl { s with progress := { s.progress with error := msg } })
  else dlFetch s env

end CoreSvc

/-! ## Sample states used by witnesses -/

/-- An installed Mihomo catalog entry. -/
def sampleCoreInstalled : CoreSvc.Core :=
  { name := "Mihomo", version := "1.18.10", latestVersion := "1.18.10",
    installed := true, path := "/data/cores/mihomo" }

/-- A not-installed sing-box catalog entry. -/
def sampleCoreBare : CoreSvc.Core := { name := "sing-box" }

/-- A service state with one installed and one missing engine and no
download ever started. -/
def sampleSvc : CoreSvc.Service :=
  { currentCore := "singbox",
    cores := [("mihomo", sampleCoreInstalled), ("singbox", sampleCoreBare)],
    downloadProgress := [] }

/-! ## Claim theorems -/

/-- C10: `GetDownloadProgress` is total and pure: for an engine with no
recorded download it returns the zero-value progress record (not an error
or null), and it never modifies the service state. -/
theorem getDownloadProgress_total_and_pure (s : CoreSvc.Service) (coreType : String) :
    (List.lookup coreType s.downloadProgress = none →
      (CoreSvc.getDownloadProgress s coreType).1 =
        { downloading := false, progress := 0, speed := 0, error := "" }) ∧
    (CoreSvc.getDownloadProgress s coreType).2 = s := by
  unfold CoreSvc.getDownloadProgress
  constructor
  · intro h
    simp [h]
  · cases List.lookup coreType s.downloadProgress <;> rfl

/-- Witness for C10 at a concrete state with no download history. -/
theorem getDownloadProgress_total_witness :
    (CoreSvc.getDownloadProgress sampleSvc "mihomo").1 =
      { downloading := false, progress := 0, speed := 0, error := "" } ∧
    (CoreSvc.getDownloadProgress sampleSvc "mihomo").2 = sampleSvc :=
  ⟨(getDownloadProgress_total_and_pure sampleSvc "mihomo").1 rfl,
   (getDownloadProgress_total_and_pure sampleSvc "mihomo").2⟩

/-- C4: `SwitchCore` rejects an unknown or not-installed engine and leaves
the whole state unchanged; for an installed engine it succeeds, the next
`GetStatus` reports the new current engine, the catalog and download state
are untouched (no process interaction), and the choice is persisted in the
status record. -/
theorem switchCore_spec (s : CoreSvc.Service) (coreType : String) :
    (List.lookup coreType s.cores = none →
       (∃ e, (CoreSvc.switchCore s coreType).1 = .error e) ∧
       (CoreSvc.switchCore s coreType).2 = s) ∧
    (∀ core, List.lookup coreType s.cores = some core → core.installed = false →
       (∃ e, (CoreSvc.switchCore s coreType).1 = .error e) ∧
       (CoreSvc.switchCore s coreType).2 = s) ∧
    (∀ core, List.lookup coreType s.cores = some core → core.installed = true →
       (CoreSvc.switchCore s coreType).1 = .ok () ∧
       (CoreSvc.getStatus (CoreSvc.switchCore s coreType).2).1 = coreType ∧
       (CoreSvc.switchCore s coreType).2.cores = s.cores ∧
       (CoreSvc.switchCore s coreType).2.downloadProgress = s.downloadProgress ∧
       ∃ rec, (CoreSvc.switchCore s coreType).2.saved = some rec ∧
              rec.currentCore = coreType) := by
  refine ⟨fun h => ?_, fun core h hinst => ?_, fun core h hinst => ?_⟩
  · simp [CoreSvc.switchCore, h]
  · simp [CoreSvc.switchCore, h, hinst]
  · simp [CoreSvc.switchCore, h, hinst, CoreSvc.saveStatus, CoreSvc.getStatus,
          CoreSvc.savedRecord]

/-- Witness for C4: switching the sample service to the installed engine
succeeds and is reflected by `GetStatus` and the persisted record. -/
theorem switchCore_witness :
    (CoreSvc.switchCore sampleSvc "mihomo").1 = .ok () ∧
    (CoreSvc.getStatus (CoreSvc.switchCore sampleSvc "mihomo").2).1 = "mihomo" ∧
    (CoreSvc.switchCore sampleSvc "mihomo").2.cores = sampleSvc.cores ∧
    (CoreSvc.switchCore sampleSvc "mihomo").2.downloadProgress = sampleSvc.downloadProgress ∧
    ∃ rec, (CoreSvc.switchCore sampleSvc "mihomo").2.saved = some rec ∧
           rec.currentCore = "mihomo" :=
  (switchCore_spec sampleSvc "mihomo").2.2 sampleCoreInstalled (by decide) rfl

/-- Helper: the `GetLogs` filtering loop on level `"error"` keeps exactly
the lines carrying one of the error markers. -/
theorem filterLogs_error_eq (l : List String) :
    Bridge.filterLogs "error" l = l.filter
      (fun log => Bridge.strContains log "ERR" || Bridge.strContains log "FATA" ||
                  Bridge.strContains log "error") := by
  induction l with
  | nil => rfl
  | cons a t ih =>
    simp only [Bridge.filterLogs, List.filter_cons, ih]
    split <;> simp_all

/-- Helper: filtering on level `"warn"`. -/
theorem filterLogs_warn_eq (l : List String) :
    Bridge.filterLogs "warn" l = l.filter
      (fun log => Bridge.strContains log "WARN" || Bridge.strContains log "warning") := by
  induction l with
  | nil => rfl
  | cons a t ih =>
    simp only [Bridge.filterLogs, List.filter_cons, ih]
    split <;> simp_all

/-- Helper: filtering on level `"info"`. -/
theorem filterLogs_info_eq (l : List String) :
    Bridge.filterLogs "info" l = l.filter
      (fun log => Bridge.strContains log "INFO" || Bridge.strContains log "info") := by
  induction l with
  | nil => rfl
  | cons a t ih =>
    simp only [Bridge.filterLogs, List.filter_cons, ih]
    split <;> simp_all

/-- Helper: any other level keeps every line. -/
theorem filterLogs_other_eq (level : String) (h1 : level ≠ "error")
    (h2 : level ≠ "warn") (h3 : level ≠ "info") (l : List String) :
    Bridge.filterLogs level l = l := by
  induction l with
  | nil => rfl
  | cons a t ih => simp [Bridge.filterLogs, h1, h2, h3, ih]

/-- C8: `GetLogs` with limit `n` and a severity level returns, from the
most recent `n` captured lines in order (`recentLines`, modelled from the
spec since `Service.GetLogs` is not among the provided sources), exactly
the lines containing that severity's substring markers — ERR/FATA/error,
WARN/warning, INFO/info — and for any other level all of them. -/
theorem getLogs_severity_filter (buffer : List String) (n : Nat) (level : String) :
    Bridge.getLogs buffer n "error" = (Bridge.recentLines buffer n).filter
      (fun log => Bridge.strContains log "ERR" || Bridge.strContains log "FATA" ||
                  Bridge.strContains log "error") ∧
    Bridge.getLogs buffer n "warn" = (Bridge.recentLines buffer n).filter
      (fun log => Bridge.strContains log "WARN" || Bridge.strContains log "warning") ∧
    Bridge.getLogs buffer n "info" = (Bridge.recentLines buffer n).filter
      (fun log => Bridge.strContains log "INFO" || Bridge.strContains log "info") ∧
    (level ≠ "error" → level ≠ "warn" → level ≠ "info" →
      Bridge.getLogs buffer n level = Bridge.recentLines buffer n) :=
  ⟨filterLogs_error_eq _, filterLogs_warn_eq _, filterLogs_info_eq _,
   fun h1 h2 h3 => filterLogs_other_eq level h1 h2 h3 _⟩

/-- Witness for C8 on a concrete buffer with the hypotheses of the
unfiltered case discharged at level `"all"`. -/
theorem getLogs_severity_filter_witness :
    Bridge.getLogs ["boot", "INFO up", "ERR down"] 2 "error" =
      (Bridge.recentLines ["boot", "INFO up", "ERR down"] 2).filter
        (fun log => Bridge.strContains log "ERR" || Bridge.strContains log "FATA" ||
                    Bridge.strContains log "error") ∧
    Bridge.getLogs ["boot", "INFO up", "ERR down"] 2 "all" =
      Bridge.recentLines ["boot", "INFO up", "ERR down"] 2 :=
  ⟨(getLogs_severity_filter ["boot", "INFO up", "ERR down"] 2 "all").1,
   (getLogs_severity_filter ["boot", "INFO up", "ERR down"] 2 "all").2.2.2
     (by decide) (by decide) (by decide)⟩

/-- Helper: `dispatch` leaves the issued request untouched. -/
theorem dispatch_fst (req : Bridge.UpstreamReq)
    (upstream : Bridge.UpstreamReq → Bridge.UpstreamResult) :
    (Bridge.dispatch req upstream).1 = req := by
  unfold Bridge.dispatch
  cases upstream req <;> rfl

/-- Helper: `dispatch` issues exactly the given request, answers 503 with
the "Mihomo API 不可用" message on connection failure, and relays the
upstream status and body unchanged on success. -/
theorem dispatch_spec (req : Bridge.UpstreamReq)
    (upstream : Bridge.UpstreamReq → Bridge.UpstreamResult) :
    (Bridge.dispatch req upstream).1 = req ∧
    (∀ msg, upstream req = .failure msg →
      (Bridge.dispatch req upstream).2 =
        { status := 503, body := .jsonError 1 ("Mihomo API 不可用: " ++ msg) }) ∧
    (∀ st b, upstream req = .success st b →
      (Bridge.dispatch req upstream).2 =
        { status := st, body := .raw "application/json" b }) := by
  refine ⟨dispatch_fst req upstream, fun msg h => ?_, fun st b h => ?_⟩
  · simp [Bridge.dispatch, h, Bridge.unavailable]
  · simp [Bridge.dispatch, h]

/-- C7: every bridged Mihomo control-API handler (proxies listing, single
proxy, proxy selection, delay test) resolves the engine control address —
falling back to `127.0.0.1:9090` when none is configured — issues the
equivalent request against it (the selection relays the caller's body via
PUT, the delay test defaults its query parameters), answers upstream
connection failure with a distinct 503 service-unavailable error, and on
success relays the upstream status code and body unchanged. -/
theorem bridge_handlers_spec (ec name reqBody url timeout : String)
    (upstream : Bridge.UpstreamReq → Bridge.UpstreamResult) :
    ((ec = "" → (Bridge.proxyMihomoGetProxies ec upstream).1.url =
        "http://127.0.0.1:9090/proxies") ∧
     (ec ≠ "" → (Bridge.proxyMihomoGetProxies ec upstream).1.url =
        "http://" ++ ec ++ "/proxies") ∧
     (∀ msg, upstream (Bridge.proxyMihomoGetProxies ec upstream).1 = .failure msg →
        (Bridge.proxyMihomoGetProxies ec upstream).2 =
          { status := 503, body := .jsonError 1 ("Mihomo API 不可用: " ++ msg) }) ∧
     (∀ st b, upstream (Bridge.proxyMihomoGetProxies ec upstream).1 = .success st b →
        (Bridge.proxyMihomoGetProxies ec upstream).2 =
          { status := st, body := .raw "application/json" b })) ∧
    ((ec = "" → (Bridge.proxyMihomoGetProxy ec name upstream).1.url =
        "http://127.0.0.1:9090/proxies/" ++ name) ∧
     (∀ msg, upstream (Bridge.proxyMihomoGetProxy ec name upstream).1 = .failure msg →
        (Bridge.proxyMihomoGetProxy ec name upstream).2 =
          { status := 503, body := .jsonError 1 ("Mihomo API 不可用: " ++ msg) }) ∧
     (∀ st b, upstream (Bridge.proxyMihomoGetProxy ec name upstream).1 = .success st b →
        (Bridge.proxyMihomoGetProxy ec name upstream).2 =
          { status := st, body := .raw "application/json" b })) ∧
    ((ec = "" → (Bridge.proxyMihomoSelectProxy ec name reqBody upstream).1.url =
        "http://127.0.0.1:9090/proxies/" ++ name) ∧
     (Bridge.proxyMihomoSelectProxy ec name reqBody upstream).1.method = "PUT" ∧
     (Bridge.proxyMihomoSelectProxy ec name reqBody upstream).1.body = reqBody ∧
     (∀ msg, upstream (Bridge.proxyMihomoSelectProxy ec name reqBody upstream).1 =
          .failure msg →
        (Bridge.proxyMihomoSelectProxy ec name reqBody upstream).2 =
          { status := 503, body := .jsonError 1 ("Mihomo API 不可用: " ++ msg) }) ∧
     (∀ st b, upstream (Bridge.proxyMihomoSelectProxy ec name reqBody upstream).1 =
          .success st b →
        (Bridge.proxyMihomoSelectProxy ec name reqBody upstream).2 =
          { status := st, body := .raw "application/json" b })) ∧
    ((url = "" → timeout = "" →
        (Bridge.proxyMihomoTestDelay ec name url timeout upstream).1.url =
          "http://" ++ Bridge.apiAddrOf ec ++ "/proxies/" ++ name ++ "/delay?url=" ++
            "http://www.gstatic.com/generate_204" ++ "&timeout=" ++ "5000") ∧
     (ec = "" → Bridge.apiAddrOf ec = "127.0.0.1:9090") ∧
     (∀ msg, upstream (Bridge.proxyMihomoTestDelay ec name url timeout upstream).1 =
          .failure msg →
        (Bridge.proxyMihomoTestDelay ec name url timeout upstream).2 =
          { status := 503, body := .jsonError 1 ("Mihomo API 不可用: " ++ msg) }) ∧
     (∀ st b, upstream (Bridge.proxyMihomoTestDelay ec name url timeout upstream).1 =
          .success st b →
        (Bridge.proxyMihomoTestDelay ec name url timeout upstream).2 =
          { status := st, body := .raw "application/json" b })) := by
  refine ⟨⟨fun h => ?_, fun h => ?_, ?_, ?_⟩, ⟨fun h => ?_, ?_, ?_⟩,
          ⟨fun h => ?_, ?_, ?_, ?_, ?_⟩, ⟨fun hu ht => ?_, fun h => ?_, ?_, ?_⟩⟩
  · subst h
    simp [Bridge.proxyMihomoGetProxies, Bridge.apiAddrOf, (dispatch_spec _ _).1]
  · simp [Bridge.proxyMihomoGetProxies, Bridge.apiAddrOf, h, (dispatch_spec _ _).1]
  · simp only [Bridge.proxyMihomoGetProxies, dispatch_fst]
    exact (dispatch_spec _ _).2.1
  · simp only [Bridge.proxyMihomoGetProxies, dispatch_fst]
    exact (dispatch_spec _ _).2.2
  · subst h
    simp [Bridge.proxyMihomoGetProxy, Bridge.apiAddrOf, (dispatch_spec _ _).1]
  · simp only [Bridge.proxyMihomoGetProxy, dispatch_fst]
    exact (dispatch_spec _ _).2.1
  · simp only [Bridge.proxyMihomoGetProxy, dispatch_fst]
    exact (dispatch_spec _ _).2.2
  · subst h
    simp [Bridge.proxyMihomoSelectProxy, Bridge.apiAddrOf, (dispatch_spec _ _).1]
  · simp [Bridge.proxyMihomoSelectProxy, (dispatch_spec _ _).1]
  · simp [Bridge.proxyMihomoSelectProxy, (dispatch_spec _ _).1]
  · simp only [Bridge.proxyMihomoSelectProxy, dispatch_fst]
    exact (dispatch_spec _ _).2.1
  · simp only [Bridge.proxyMihomoSelectProxy, dispatch_fst]
    exact (dispatch_spec _ _).2.2
  · subst hu; subst ht
    simp [Bridge.proxyMihomoTestDelay, (dispatch_spec _ _).1]
  · simp [Bridge.apiAddrOf, h]
  · simp only [Bridge.proxyMihomoTestDelay, dispatch_fst]
    exact (dispatch_spec _ _).2.1
  · simp only [Bridge.proxyMihomoTestDelay, dispatch_fst]
    exact (dispatch_spec _ _).2.2

/-- Witness for C7: concrete unreachable engine with no configured
address — every handler answers 503 with the unavailability message, and
the issued requests point at the default address. -/
theorem bridge_handlers_witness :
    (Bridge.proxyMihomoGetProxies ""
        (fun _ => .failure "connection refused")).1.url =
      "http://127.0.0.1:9090/proxies" ∧
    (Bridge.proxyMihomoGetProxies "" (fun _ => .failure "connection refused")).2 =
      { status := 503,
        body := .jsonError 1 ("Mihomo API 不可用: " ++ "connection refused") } ∧
    (Bridge.proxyMihomoSelectProxy "" "GLOBAL" "{}"
        (fun _ => .success 204 "")).2 =
      { status := 204, body := .raw "application/json" "" } :=
  ⟨((bridge_handlers_spec "" "GLOBAL" "{}" "" ""
       (fun _ => .failure "connection refused")).1).1 rfl,
   ((bridge_handlers_spec "" "GLOBAL" "{}" "" ""
       (fun _ => .failure "connection refused")).1).2.2.1 "connection refused" rfl,
   ((bridge_handlers_spec "" "GLOBAL" "{}" "" ""
       (fun _ => .success 204 "")).2.2.1).2.2.2.2 204 "" rfl⟩

/-- Helper: the conversion loop collects exactly the successfully
translated outbounds and their node names, in input order. -/
theorem convertNodes_eq (nodes : List Gen.ProxyNode) :
    Gen.convertNodes nodes =
      (nodes.filterMap Gen.convertProxyNode,
       (nodes.filter fun n => (Gen.convertProxyNode n).isSome).map Gen.ProxyNode.name) := by
  induction nodes with
  | nil => rfl
  | cons n t ih =>
    simp only [Gen.convertNodes, ih, List.filterMap_cons, List.filter_cons]
    cases h : Gen.convertProxyNode n <;> simp [h]

/-- C6: translating a node list yields one outbound per recognized node in
input order (followed by the synthesized selector/urltest/direct/block/dns
entries); a node whose protocol tag is unrecognized is reported as not
supported (`none`) and merely omitted — inserting it anywhere leaves the
translation of every other node and the whole assembly unchanged. -/
theorem generateOutbounds_spec (nodes : List Gen.ProxyNode) :
    Gen.generateOutbounds nodes =
      nodes.filterMap Gen.convertProxyNode
        ++ Gen.selectorBlock
             ((nodes.filter fun n => (Gen.convertProxyNode n).isSome).map Gen.ProxyNode.name)
        ++ Gen.baseOutbounds ∧
    (∀ xs ys bad, Gen.convertProxyNode bad = none →
       Gen.generateOutbounds (xs ++ bad :: ys) = Gen.generateOutbounds (xs ++ ys)) ∧
    (∀ n : Gen.ProxyNode, n.config.isObject = false →
       Gen.strToLower n.type ∉ (["ss", "shadowsocks", "vmess", "vless", "trojan",
            "hysteria2", "hy2", "socks", "socks5", "http"] : List String) →
       Gen.convertProxyNode n = none) := by
  refine ⟨?_, fun xs ys bad h => ?_, fun n hobj hmem => ?_⟩
  · simp [Gen.generateOutbounds, convertNodes_eq]
  · simp [Gen.generateOutbounds, convertNodes_eq, List.filterMap_append,
          List.filterMap_cons, List.filter_append, List.filter_cons, h]
  · simp only [List.mem_cons, List.mem_singleton, not_or] at hmem
    obtain ⟨h1, h2, h3, h4, h5, h6, h7, h8, h9, h10, -⟩ := hmem
    cases hc : n.config with
    | object fields =>
      rw [hc] at hobj
      simp [Gen.NodeConfig.isObject] at hobj
    | empty => simp [Gen.convertProxyNode, hc, h1, h2, h3, h4, h5, h6, h7, h8, h9, h10]
    | invalid raw => simp [Gen.convertProxyNode, hc, h1, h2, h3, h4, h5, h6, h7, h8, h9, h10]

/-- Witness for C6: a concrete unsupported node is dropped without
affecting the translation of the surrounding list. -/
theorem generateOutbounds_witness :
    Gen.generateOutbounds
        [ { name := "n1", type := "ss", server := "s1", port := 1, config := .empty },
          { name := "bad", type := "wireguard", server := "s2", port := 2, config := .empty } ] =
      Gen.generateOutbounds
        [ { name := "n1", type := "ss", server := "s1", port := 1, config := .empty } ] ∧
    Gen.convertProxyNode
        { name := "bad", type := "wireguard", server := "s2", port := 2, config := .empty } =
      none := by
  have hbad : Gen.convertProxyNode
      { name := "bad", type := "wireguard", server := "s2", port := 2,
        config := .empty } = none :=
    (generateOutbounds_spec []).2.2
      { name := "bad", type := "wireguard", server := "s2", port := 2, config := .empty }
      rfl (by decide)
  exact ⟨(generateOutbounds_spec []).2.1
    [{ name := "n1", type := "ss", server := "s1", port := 1, config := .empty }] []
    _ hbad, hbad⟩

/-- Helper: when no non-empty `sni` string is present, `getStringOr`
falls back to its default. -/
theorem getStringOr_default (m : List (String × JValue)) (key d : String)
    (h : hasNonemptyStr m key = false) : getStringOr m key d = d := by
  unfold hasNonemptyStr at h
  unfold getStringOr
  cases hv : jLookup m key with
  | none => rfl
  | some v =>
    cases v with
    | str s =>
      rw [hv] at h
      simp only [ne_eq, decide_not] at h
      have : s = "" := by
        by_contra hne
        simp [hne] at h
      simp [this]
    | null => rfl
    | bool b => rfl
    | num q => rfl
    | arr xs => rfl
    | obj fields => rfl

/-- C3 counterexample: a payload of type `vless` carrying `tls: true` and
no `sni` translates to an outbound with no TLS section at all, so its TLS
server name is not defaulted to the server host as the claim requires for
every TLS-flagged payload. -/
theorem tls_defaulting_counterexample :
    getBool [("type", JValue.str "vless"), ("server", JValue.str "a.com"),
             ("uuid", JValue.str "u"), ("tls", JValue.bool true)] "tls" = true ∧
    jLookup [("type", JValue.str "vless"), ("server", JValue.str "a.com"),
             ("uuid", JValue.str "u"), ("tls", JValue.bool true)] "sni" = none ∧
    ∃ ob, Gen.convertFromConfig "n"
        [("type", JValue.str "vless"), ("server", JValue.str "a.com"),
         ("uuid", JValue.str "u"), ("tls", JValue.bool true)] = some ob ∧
      ob.tls = none :=
  ⟨rfl, rfl, ⟨_, rfl, rfl⟩⟩

/-- C3 amended: only `vmess` payloads with the TLS flag true and `trojan`
payloads (unconditionally) receive a TLS section; whenever a TLS section
is emitted its server name defaults to the payload's server host when no
non-empty `sni` is present, and its insecure flag equals the payload's
`skip-cert-verify` boolean, hence is false unless that is explicitly true;
payloads of any other type translate without a TLS section. -/
theorem tls_defaulting_amended (name : String) (config : List (String × JValue))
    (ob : Gen.SingboxOutbound) (h : Gen.convertFromConfig name config = some ob) :
    (∀ t, ob.tls = some t →
       (hasNonemptyStr config "sni" = false → t.serverName = getStr config "server") ∧
       t.insecure = getBool config "skip-cert-verify") ∧
    (Gen.strToLower (getStr config "type") = "vmess" → getBool config "tls" = true →
       ob.tls.isSome = true) ∧
    (Gen.strToLower (getStr config "type") = "trojan" → ob.tls.isSome = true) ∧
    (Gen.strToLower (getStr config "type") ≠ "vmess" →
     Gen.strToLower (getStr config "type") ≠ "trojan" → ob.tls = none) := by
  by_cases t1 : Gen.strToLower (getStr config "type") = "ss"
  · rw [Gen.convertFromConfig, if_pos t1] at h
    simp only [Option.some.injEq] at h
    subst h
    refine ⟨fun t ht => by simp at ht, fun hv => ?_, fun hv => ?_, fun _ _ => rfl⟩
    · exact absurd (t1.symm.trans hv) (by decide)
    · exact absurd (t1.symm.trans hv) (by decide)
  · by_cases t2 : Gen.strToLower (getStr config "type") = "vmess"
    · rw [Gen.convertFromConfig, if_neg t1, if_pos t2] at h
      simp only [Option.some.injEq] at h
      subst h
      refine ⟨fun t ht => ?_, fun _ hb => ?_, fun hv => ?_, fun hv _ => ?_⟩
      · by_cases hb : getBool config "tls" = true
        · simp only [hb, if_pos] at ht
          simp only [Option.some.injEq] at ht
          subst ht
          exact ⟨fun hs => getStringOr_default config "sni" _ hs, rfl⟩
        · simp only [Bool.not_eq_true] at hb
          simp [hb] at ht
      · simp [hb]
      · exact absurd (t2.symm.trans hv) (by decide)
      · exact absurd t2 hv
    · by_cases t3 : Gen.strToLower (getStr config "type") = "trojan"
      · rw [Gen.convertFromConfig, if_neg t1, if_neg t2, if_pos t3] at h
        simp only [Option.some.injEq] at h
        subst h
        refine ⟨fun t ht => ?_, fun hv => ?_, fun _ => rfl, fun _ hv => ?_⟩
        · simp only [Option.some.injEq] at ht
          subst ht
          exact ⟨fun hs => getStringOr_default config "sni" _ hs, rfl⟩
        · exact absurd (t3.symm.trans hv) (by decide)
        · exact absurd t3 hv
      · by_cases t4 : Gen.strToLower (getStr config "type") = "vless"
        · rw [Gen.convertFromConfig, if_neg t1, if_neg t2, if_neg t3, if_pos t4] at h
          simp only [Option.some.injEq] at h
          subst h
          exact ⟨fun t ht => by simp at ht, fun hv => absurd hv t2,
                 fun hv => absurd hv t3, fun _ _ => rfl⟩
        · rw [Gen.convertFromConfig, if_neg t1, if_neg t2, if_neg t3, if_neg t4] at h
          exact absurd h (by simp)

/-- Witness for C3 (amended) on a concrete trojan payload with no `sni`:
the emitted TLS section uses the server host and keeps `insecure` at the
payload's (absent, hence false) `skip-cert-verify`. -/
theorem tls_defaulting_witness :
    ({ enabled := true, serverName := "h.example", insecure := false }
        : Gen.SingboxTLS).serverName =
      getStr [("type", JValue.str "trojan"), ("server", JValue.str "h.example"),
        ("port", JValue.num 8443), ("password", JValue.str "pw")] "server" ∧
    ({ enabled := true, serverName := "h.example", insecure := false }
        : Gen.SingboxTLS).insecure =
      getBool [("type", JValue.str "trojan"), ("server", JValue.str "h.example"),
        ("port", JValue.num 8443), ("password", JValue.str "pw")] "skip-cert-verify" :=
  ⟨((tls_defaulting_amended "n"
      [("type", JValue.str "trojan"), ("server", JValue.str "h.example"),
       ("port", JValue.num 8443), ("password", JValue.str "pw")]
      { tag := "n", type := "trojan", server := "h.example", serverPort := 8443,
        password := "pw",
        tls := some { enabled := true, serverName := "h.example", insecure := false } }
      (by rfl)).1
      { enabled := true, serverName := "h.example", insecure := false } rfl).1 rfl,
   ((tls_defaulting_amended "n"
      [("type", JValue.str "trojan"), ("server", JValue.str "h.example"),
       ("port", JValue.num 8443), ("password", JValue.str "pw")]
      { tag := "n", type := "trojan", server := "h.example", serverPort := 8443,
        password := "pw",
        tls := some { enabled := true, serverName := "h.example", insecure := false } }
      (by rfl)).1
      { enabled := true, serverName := "h.example", insecure := false } rfl).2⟩

/-- C9 counterexample: two nodes with byte-identical parsed payloads but
different top-level display names translate to different outbounds (the
top-level name becomes the outbound tag), so the translator does not
ignore the node's top-level fields entirely. -/
theorem payload_only_counterexample :
    Gen.convertProxyNode
        { name := "a", type := "ss", server := "s", port := 1,
          config := .object [("type", JValue.str "ss")] } ≠
      Gen.convertProxyNode
        { name := "b", type := "ss", server := "s", port := 1,
          config := .object [("type", JValue.str "ss")] } := by
  decide

/-- C9 amended: when the opaque payload parses as a JSON object the
translator uses that payload plus only the node's top-level name (as the
outbound tag) — two nodes with the same name and the same parsed payload
translate identically whatever their other top-level fields — and when
the payload's `type` is missing or unrecognized the node translates to
nothing, even if the node's top-level protocol tag is supported. -/
theorem payload_authoritative (n₁ n₂ : Gen.ProxyNode)
    (fields : List (String × JValue))
    (h₁ : n₁.config = .object fields) (h₂ : n₂.config = .object fields)
    (hn : n₁.name = n₂.name) :
    Gen.convertProxyNode n₁ = Gen.convertProxyNode n₂ ∧
    (Gen.strToLower (getStr fields "type") ∉
        (["ss", "vmess", "trojan", "vless"] : List String) →
      Gen.convertProxyNode n₁ = none) := by
  have e₁ : Gen.convertProxyNode n₁ = Gen.convertFromConfig n₁.name fields := by
    unfold Gen.convertProxyNode
    rw [h₁]
  have e₂ : Gen.convertProxyNode n₂ = Gen.convertFromConfig n₂.name fields := by
    unfold Gen.convertProxyNode
    rw [h₂]
  refine ⟨by rw [e₁, e₂, hn], fun hmem => ?_⟩
  simp only [List.mem_cons, List.mem_singleton, not_or] at hmem
  obtain ⟨u1, u2, u3, u4, -⟩ := hmem
  rw [e₁]
  unfold Gen.convertFromConfig
  simp [u1, u2, u3, u4]

/-- Witness for C9 (amended): concrete nodes sharing name and payload but
nothing else translate identically, and the unrecognized payload type
drops the node although its top-level tag is the supported `ss`. -/
theorem payload_authoritative_witness :
    Gen.convertProxyNode
        { name := "a", type := "ss", server := "s", port := 1,
          config := .object [("type", JValue.str "wireguard")] } =
      Gen.convertProxyNode
        { name := "a", type := "trojan", server := "other", port := 9,
          config := .object [("type", JValue.str "wireguard")] } ∧
    Gen.convertProxyNode
        { name := "a", type := "ss", server := "s", port := 1,
          config := .object [("type", JValue.str "wireguard")] } = none :=
  ⟨(payload_authoritative _ _ [("type", JValue.str "wireguard")] rfl rfl rfl).1,
   (payload_authoritative
      { name := "a", type := "ss", server := "s", port := 1,
        config := .object [("type", JValue.str "wireguard")] }
      { name := "a", type := "trojan", server := "other", port := 9,
        config := .object [("type", JValue.str "wireguard")] }
      [("type", JValue.str "wireguard")] rfl rfl rfl).2 (by decide)⟩

/-- Helper: the streamed percentage values form a non-decreasing chain
from any starting value consistent with the bytes written so far. -/
theorem streamLoop_chain (total : Int) :
    ∀ (chunks : List Nat) (written : Nat) (prev : ℚ),
      (total > 0 → prev ≤ (written : ℚ) / (total : ℚ) * 100) →
      List.Chain' (· ≤ ·) (prev :: (CoreSvc.streamLoop total prev written chunks).2)
  | [] => by
    intro written prev h
    simp [CoreSvc.streamLoop]
  | n :: rest => by
    intro written prev h
    simp only [CoreSvc.streamLoop]
    rw [List.chain'_cons]
    constructor
    · by_cases ht : total > 0
      · rw [if_pos ht]
        have htq : (0 : ℚ) < (total : ℚ) := by exact_mod_cast ht
        have hw : ((written : ℕ) : ℚ) ≤ (((written + n : ℕ)) : ℚ) := by
          exact_mod_cast Nat.le_add_right written n
        exact le_trans (h ht)
          (mul_le_mul_of_nonneg_right ((div_le_div_iff_of_pos_right htq).mpr hw) (by norm_num))
      · rw [if_neg ht]
    · apply streamLoop_chain total rest
      intro ht
      rw [if_pos ht]

/-- Helper: with no positive content length every streamed percentage
equals the starting value. -/
theorem streamLoop_const (total : Int) (hnp : ¬ total > 0) :
    ∀ (chunks : List Nat) (written : Nat) (prev : ℚ),
      ∀ p ∈ (CoreSvc.streamLoop total prev written chunks).2, p = prev
  | [] => by
    intro written prev p hp
    simp [CoreSvc.streamLoop] at hp
  | n :: rest => by
    intro written prev p hp
    simp only [CoreSvc.streamLoop, if_neg hnp, List.mem_cons] at hp
    rcases hp with rfl | hp
    · rfl
    · exact streamLoop_const total hnp rest (written + n) prev p hp

/-- C5: one `DownloadCore` invocation resets the engine's progress record
to a fresh one with percent 0 (and no stale error), the percentage values
produced by the streaming loop are monotonically non-decreasing from 0,
and when the response carries no positive content length every streamed
percentage stays 0 until the download completes. -/
theorem download_percent_monotone (s : CoreSvc.DlState) (total : Int)
    (chunks : List Nat) :
    ((CoreSvc.downloadInit s).progress.progress = 0 ∧
     (CoreSvc.downloadInit s).progress.downloading = true ∧
     (CoreSvc.downloadInit s).progress.error = "") ∧
    List.Chain' (· ≤ ·) ((0 : ℚ) :: (CoreSvc.streamLoop total 0 0 chunks).2) ∧
    (total ≤ 0 → ∀ p ∈ (CoreSvc.streamLoop total 0 0 chunks).2, p = 0) := by
  refine ⟨⟨rfl, rfl, rfl⟩, ?_, fun hle p hp => ?_⟩
  · apply streamLoop_chain total chunks 0 0
    intro ht
    simp
  · exact streamLoop_const total (by omega) chunks 0 0 p hp

/-- Witness for C5 on a concrete absent content length (`-1`) and two
chunks: fresh record percent 0, chain holds, and every streamed
percentage is 0. -/
theorem download_percent_monotone_witness :
    ((CoreSvc.downloadInit { }).progress.progress = 0 ∧
     (CoreSvc.downloadInit { }).progress.downloading = true ∧
     (CoreSvc.downloadInit { }).progress.error = "") ∧
    List.Chain' (· ≤ ·) ((0 : ℚ) :: (CoreSvc.streamLoop (-1) 0 0 [3, 4]).2) ∧
    (∀ p ∈ (CoreSvc.streamLoop (-1) 0 0 [3, 4]).2, p = 0) :=
  ⟨(download_percent_monotone { } (-1) [3, 4]).1,
   (download_percent_monotone { } (-1) [3, 4]).2.1,
   (download_percent_monotone { } (-1) [3, 4]).2.2 (by decide)⟩

/-- C1 counterexample: a concrete download whose extraction fails mid-copy
(after the archive streamed completely) ends in an error, yet the failure
message is NOT recorded in the progress record's error field (it stays
empty), and the previously installed binary at the engine's binary path
has been truncated to the partial extraction output — it is not left
untouched. -/
theorem download_failure_counterexample :
    (CoreSvc.downloadCore
        { installed := true, version := "1.0", latestVersion := "1.1",
          binContent := some [7, 7, 7] }
        { httpResult := some { status := 200, contentLength := 10, chunks := [10],
                               final := .eof },
          createOk := true, extract := .copyFail [9] "unexpected EOF" }).1 =
      .error ("extract failed: " ++ "unexpected EOF") ∧
    (CoreSvc.downloadCore
        { installed := true, version := "1.0", latestVersion := "1.1",
          binContent := some [7, 7, 7] }
        { httpResult := some { status := 200, contentLength := 10, chunks := [10],
                               final := .eof },
          createOk := true, extract := .copyFail [9] "unexpected EOF" }).2.progress.error
      = "" ∧
    (CoreSvc.downloadCore
        { installed := true, version := "1.0", latestVersion := "1.1",
          binContent := some [7, 7, 7] }
        { httpResult := some { status := 200, contentLength := 10, chunks := [10],
                               final := .eof },
          createOk := true, extract := .copyFail [9] "unexpected EOF" }).2.binContent
      = some [9] :=
  ⟨rfl, rfl, rfl⟩

/-- Helper: any failing extraction removes the temporary archive, keeps
the installed flag, version and error field, clears the in-progress flag,
and changes the binary path only in the mid-copy-failure case. -/
theorem dlExtract_error (s : CoreSvc.DlState) (ex : CoreSvc.ExtractOutcome)
    (e : String) (s' : CoreSvc.DlState)
    (h : CoreSvc.dlExtract s ex = (.error e, s')) :
    s'.tmpExists = false ∧ s'.installed = s.installed ∧ s'.version = s.version ∧
    s'.progress.downloading = false ∧ s'.progress.error = s.progress.error ∧
    (s'.binContent = s.binContent ∨
     ∃ pb msg, ex = .copyFail pb msg ∧ s'.binContent = some pb) := by
  cases ex with
  | copyOk content => simp [CoreSvc.dlExtract, Prod.mk.injEq] at h
  | copyFail pb msg =>
    simp only [CoreSvc.dlExtract, Prod.mk.injEq] at h
    obtain ⟨-, hs⟩ := h
    subst hs
    exact ⟨rfl, rfl, rfl, rfl, rfl, Or.inr ⟨pb, msg, rfl, rfl⟩⟩
  | openFail msg =>
    simp only [CoreSvc.dlExtract, Prod.mk.injEq] at h
    obtain ⟨-, hs⟩ := h
    subst hs
    exact ⟨rfl, rfl, rfl, rfl, rfl, Or.inl rfl⟩
  | gzipFail msg =>
    simp only [CoreSvc.dlExtract, Prod.mk.injEq] at h
    obtain ⟨-, hs⟩ := h
    subst hs
    exact ⟨rfl, rfl, rfl, rfl, rfl, Or.inl rfl⟩
  | notFound =>
    simp only [CoreSvc.dlExtract, Prod.mk.injEq] at h
    obtain ⟨-, hs⟩ := h
    subst hs
    exact ⟨rfl, rfl, rfl, rfl, rfl, Or.inl rfl⟩

/-- Helper: a failing streaming-or-extraction stage removes the temporary
archive and preserves the fields `dlExtract_error` preserves. -/
theorem dlStream_error (s : CoreSvc.DlState) (resp : CoreSvc.HttpResp)
    (ex : CoreSvc.ExtractOutcome) (e : String) (s' : CoreSvc.DlState)
    (h : CoreSvc.dlStream s resp ex = (.error e, s')) :
    s'.tmpExists = false ∧ s'.installed = s.installed ∧ s'.version = s.version ∧
    s'.progress.downloading = false ∧ s'.progress.error = s.progress.error ∧
    (s'.binContent = s.binContent ∨
     ∃ pb msg, ex = .copyFail pb msg ∧ s'.binContent = some pb) := by
  unfold CoreSvc.dlStream at h
  cases hf : resp.final with
  | ioError msg =>
    rw [hf] at h
    simp only [Prod.mk.injEq] at h
    obtain ⟨-, hs⟩ := h
    subst hs
    exact ⟨rfl, rfl, rfl, rfl, rfl, Or.inl rfl⟩
  | eof =>
    rw [hf] at h
    obtain ⟨h1, h2, h3, h4, h5, h6⟩ := dlExtract_error _ _ _ _ h
    exact ⟨h1, h2, h3, h4, h5, h6⟩

/-- Helper: a failing fetch stage (connection error, bad status, failing
temporary-file creation, or a later streaming/extraction failure) removes
any temporary archive of this run, preserves the installed flag, version
and error field, and changes the binary path only on a mid-copy extraction
failure. -/
theorem dlFetch_error (s : CoreSvc.DlState) (env : CoreSvc.DlEnv)
    (e : String) (s' : CoreSvc.DlState)
    (htmp : s.tmpExists = false)
    (h : CoreSvc.dlFetch s env = (.error e, s')) :
    s'.tmpExists = false ∧ s'.installed = s.installed ∧ s'.version = s.version ∧
    s'.progress.downloading = false ∧ s'.progress.error = s.progress.error ∧
    (s'.binContent = s.binContent ∨
     ∃ pb msg, env.extract = .copyFail pb msg ∧ s'.binContent = some pb) := by
  unfold CoreSvc.dlFetch at h
  cases hr : env.httpResult with
  | none =>
    rw [hr] at h
    simp only [Prod.mk.injEq] at h
    obtain ⟨-, hs⟩ := h
    subst hs
    exact ⟨htmp, rfl, rfl, rfl, rfl, Or.inl rfl⟩
  | some resp =>
    rw [hr] at h
    dsimp only at h
    by_cases hst : resp.status ≠ 200
    · rw [if_pos hst] at h
      simp only [Prod.mk.injEq] at h
      obtain ⟨-, hs⟩ := h
      subst hs
      exact ⟨htmp, rfl, rfl, rfl, rfl, Or.inl rfl⟩
    · rw [if_neg hst] at h
      by_cases hcr : env.createOk
      · rw [if_neg (by simpa using hcr)] at h
        obtain ⟨h1, h2, h3, h4, h5, h6⟩ := dlStream_error _ _ _ _ _ h
        exact ⟨h1, h2, h3, h4, h5, h6⟩
      · rw [if_pos (by simpa using hcr)] at h
        simp only [Prod.mk.injEq] at h
        obtain ⟨-, hs⟩ := h
        subst hs
        exact ⟨htmp, rfl, rfl, rfl, rfl, Or.inl rfl⟩

/-- C1 amended: whenever `DownloadCore` fails, the temporary archive is
removed (no partial artifact is left), the installed flag and recorded
version are unchanged and the in-progress flag is cleared; but the failure
message is recorded in the progress record's error field only when URL
resolution fails (no latest version known) — every other failure leaves
the error field empty — and the binary at the engine's binary path is left
untouched except when extraction fails mid-copy, in which case the path
holds the partial extraction output instead of the previous binary. -/
theorem download_failure_amended (s : CoreSvc.DlState) (env : CoreSvc.DlEnv)
    (e : String) (s' : CoreSvc.DlState)
    (htmp : s.tmpExists = false)
    (h : CoreSvc.downloadCore s env = (.error e, s')) :
    s'.tmpExists = false ∧
    s'.installed = s.installed ∧
    s'.version = s.version ∧
    s'.progress.downloading = false ∧
    (s.latestVersion = "" → s'.progress.error = e) ∧
    (s.latestVersion ≠ "" → s'.progress.error = "") ∧
    (s'.binContent = s.binContent ∨
     ∃ pb msg, env.extract = .copyFail pb msg ∧ s'.binContent = some pb) := by
  unfold CoreSvc.downloadCore CoreSvc.downloadInit at h
  by_cases hv : s.latestVersion = ""
  · rw [if_pos (by simpa using hv)] at h
    simp only [Prod.mk.injEq, Except.error.injEq] at h
    obtain ⟨he, hs⟩ := h
    subst hs
    exact ⟨htmp, rfl, rfl, rfl, fun _ => he, fun hne => absurd hv hne, Or.inl rfl⟩
  · rw [if_neg (by simpa using hv)] at h
    obtain ⟨h1, h2, h3, h4, h5, h6⟩ := dlFetch_error
      { progress := { downloading := true }, installed := s.installed,
        version := s.version, latestVersion := s.latestVersion,
        binContent := s.binContent, tmpExists := s.tmpExists }
      env e s' htmp h
    exact ⟨h1, h2, h3, h4, fun hv0 => absurd hv0 hv, fun _ => h5, h6⟩

/-- Witness for C1 (amended) on a concrete HTTP connection failure: the
temporary file is gone, installed flag/version/binary are unchanged, the
in-progress flag is cleared and the error field stays empty. -/
theorem download_failure_witness :
    (CoreSvc.downloadCore
        { installed := true, version := "1.0", latestVersion := "1.1",
          binContent := some [7, 7, 7] }
        { httpResult := none, createOk := true,
          extract := .copyOk [1] }).2.tmpExists = false ∧
    (CoreSvc.downloadCore
        { installed := true, version := "1.0", latestVersion := "1.1",
          binContent := some [7, 7, 7] }
        { httpResult := none, createOk := true,
          extract := .copyOk [1] }).2.installed = true ∧
    (CoreSvc.downloadCore
        { installed := true, version := "1.0", latestVersion := "1.1",
          binContent := some [7, 7, 7] }
        { httpResult := none, createOk := true,
          extract := .copyOk [1] }).2.progress.error = "" :=
  by
    have h := download_failure_amended
      { installed := true, version := "1.0", latestVersion := "1.1",
        binContent := some [7, 7, 7] }
      { httpResult := none, createOk := true, extract := .copyOk [1] }
      "download failed"
      (CoreSvc.downloadCore
        { installed := true, version := "1.0", latestVersion := "1.1",
          binContent := some [7, 7, 7] }
        { httpResult := none, createOk := true, extract := .copyOk [1] }).2
      rfl rfl
    exact ⟨h.1, h.2.1, h.2.2.2.2.2.1 (by decide)⟩

/-- C2 counterexample: on a concrete successful run, `SaveConfig` returns
the configuration path but its operation trace contains no write to a
temporary path followed by a rename onto that path — there is no rename at
all, so the claimed temp-then-rename atomic replacement does not happen. -/
theorem saveConfig_counterexample :
    (Gen.saveConfig "/data" "doc" "config" true true).2 = .ok "/data/configs/config.json" ∧
    ¬ ∃ tmp, tmp ≠ "/data/configs/config.json" ∧
        Gen.FsOp.writeFile tmp "doc" ∈ (Gen.saveConfig "/data" "doc" "config" true true).1 ∧
        Gen.FsOp.rename tmp "/data/configs/config.json" ∈
          (Gen.saveConfig "/data" "doc" "config" true true).1 := by
  constructor
  · rfl
  · rintro ⟨tmp, -, -, hr⟩
    have hops : (Gen.saveConfig "/data" "doc" "config" true true).1 =
        [Gen.FsOp.mkdirAll "/data/configs",
         Gen.FsOp.writeFile "/data/configs/config.json" "doc"] := by rfl
    rw [hops] at hr
    simp at hr

/-- C2 amended: `SaveConfig` serializes the document and writes it with a
single direct write (no temporary path, no rename) to the configuration
path, and on success returns exactly the path it wrote. -/
theorem saveConfig_direct_write (dataDir data filename : String)
    (mkdirOk writeOk : Bool) :
    (∀ op ∈ (Gen.saveConfig dataDir data filename mkdirOk writeOk).1,
       op.isRename = false) ∧
    (∀ p, (Gen.saveConfig dataDir data filename mkdirOk writeOk).2 = .ok p →
       Gen.FsOp.writeFile p data ∈ (Gen.saveConfig dataDir data filename mkdirOk writeOk).1 ∧
       p = dataDir ++ "/configs" ++ "/" ++
             (if Gen.strEndsWith filename ".json" then filename else filename ++ ".json")) := by
  unfold Gen.saveConfig
  by_cases hm : mkdirOk
  · by_cases hw : writeOk
    · constructor
      · intro op hop
        simp [hm, hw] at hop
        rcases hop with h | h <;> simp [h, Gen.FsOp.isRename]
      · intro p hp
        simp [hm, hw] at hp
        subst hp
        simp [hm, hw]
    · constructor
      · intro op hop
        simp [hm, hw] at hop
        rcases hop with h | h <;> simp [h, Gen.FsOp.isRename]
      · intro p hp
        simp [hm, hw] at hp
  · constructor
    · intro op hop
      simp [hm] at hop
      simp [hop, Gen.FsOp.isRename]
    · intro p hp
      simp [hm] at hp

/-- Witness for C2 (amended) at a concrete run: the trace has no rename and
the returned path is the written configuration path. -/
theorem saveConfig_direct_write_witness :
    Gen.FsOp.isRename (Gen.FsOp.mkdirAll "/data/configs") = false ∧
    Gen.FsOp.writeFile "/data/configs/config.json" "doc" ∈
      (Gen.saveConfig "/data" "doc" "config" true true).1 ∧
    "/data/configs/config.json" = "/data" ++ "/configs" ++ "/" ++
      (if Gen.strEndsWith "config" ".json" then "config" else "config" ++ ".json") :=
  ⟨(saveConfig_direct_write "/data" "doc" "config" true true).1
     (Gen.FsOp.mkdirAll "/data/configs") (by simp [Gen.saveConfig]),
   ((saveConfig_direct_write "/data" "doc" "config" true true).2
     "/data/configs/config.json" (by rfl)).1,
   ((saveConfig_direct_write "/data" "doc" "config" true true).2
     "/data/configs/config.json" (by rfl)).2⟩

end PBox
